import Mathlib

/-!
# Verification of the quantum_2 route-optimization core

A shallow embedding of the Python sources of the `quantum_2` logistics
engine (files `qubo_builder.py`, `quantum_solver.py`, `traffic_simulator.py`,
`solver_simple.py`) together with proofs and refutations of the frozen
specification claims.

Conventions used throughout:
* Python floats are modelled as `ℚ` where the code only performs field
  arithmetic and comparisons, and as `ℝ` where trigonometric functions
  (the haversine distance) are involved.
* Python dictionaries built with `defaultdict(float)` accumulation are
  modelled as *contribution lists* `List (QKey × ℚ)`: the dictionary value
  of a key is the sum of the coefficients of all list entries carrying that
  key, and the dictionary's key set is the set of keys occurring in the
  list.  Every observation the verified functions make of such a dictionary
  (key set, accumulated value) is invariant under this representation.
* Code that can raise a runtime exception is modelled with `Option`:
  `none` is the raised/poisoned outcome.
-/

namespace Quantum2

/-- A key of the QUBO dictionary produced by `QUBOBuilder`.
Python uses 2-tuples `(i, j)` of variable indices for quadratic/diagonal
coefficients and smuggles the constant offset under the 1-tuple sentinel
key `('const',)` in the same dictionary. -/
inductive QKey where
  | pair (i j : ℕ)
  | const
deriving DecidableEq, Repr

/-- A QUBO dictionary, represented as a contribution list (see module
doc comment): the value at a key is the sum of all contributions. -/
abbrev QUBO := List (QKey × ℚ)

/-- Variable index used by `build_time_dependent_tsp_qubo`:
`var_index[(i, p)] = idx` with `idx` incremented with `p` innermost,
hence `idx = i * N + p`. -/
def vidx (N i p : ℕ) : ℕ := i * N + p

/-- The `var_index` dictionary of `build_time_dependent_tsp_qubo` as an
association list in Python insertion order. -/
def tspVarIndex (N : ℕ) : List ((ℕ × ℕ) × ℕ) :=
  ((List.range N).map fun i =>
    (List.range N).map fun p => ((i, p), vidx N i p)).flatten

/-- Python's `itertools.combinations(l, 2)` order: all pairs of elements
taken at strictly increasing positions. -/
def combos2 {α : Type} : List α → List (α × α)
  | [] => []
  | a :: rest => (rest.map fun b => (a, b)) ++ combos2 rest

/-- The QUBO contributions that one pass of the one-hot constraint loop in
`build_time_dependent_tsp_qubo` adds for a group `vars` of mutually
exclusive variables: `+2λ` on every pair, `-2λ` on every diagonal and
`+λ` on the constant key. -/
def oneHotTerms (lam : ℚ) (vars : List ℕ) : QUBO :=
  ((combos2 vars).map fun ab => (QKey.pair ab.1 ab.2, 2 * lam))
    ++ (vars.map fun a => (QKey.pair a a, -2 * lam))
    ++ [(QKey.const, lam)]

/-- The group `vars_i` of constraint 1 ("each node visited exactly once"): the
variables of node `i` over all positions. -/
def rowVars (N i : ℕ) : List ℕ := (List.range N).map fun p => vidx N i p

/-- The group `vars_p` of constraint 2 ("each position has exactly one node"): the
variables of position `p` over all nodes. -/
def colVars (N p : ℕ) : List ℕ := (List.range N).map fun i => vidx N i p

/-- All contributions of the two one-hot constraint-penalty families of
`build_time_dependent_tsp_qubo` (constraint 1 over nodes, then
constraint 2 over positions). -/
def tspPenaltyTerms (N : ℕ) (lam : ℚ) : QUBO :=
  ((List.range N).map fun i => oneHotTerms lam (rowVars N i)).flatten
    ++ ((List.range N).map fun p => oneHotTerms lam (colVars N p)).flatten

/-- The travel-time objective contributions of
`build_time_dependent_tsp_qubo`: for every position `p` (successor taken
cyclically) and every ordered pair of distinct nodes `i ≠ j`, the
coefficient `M i j` on `(var[(i,p)], var[(j,(p+1) % N)])`. -/
def tspObjTerms (M : ℕ → ℕ → ℚ) (N : ℕ) : QUBO :=
  ((List.range N).map fun p =>
    ((List.range N).map fun i =>
      ((List.range N).filter fun j => j ≠ i).map fun j =>
        (QKey.pair (vidx N i p) (vidx N j ((p + 1) % N)), M i j)).flatten).flatten

/-- The full QUBO dictionary of `build_time_dependent_tsp_qubo` called
without time windows and without capacity constraints (its defaults). -/
def tspQUBO (M : ℕ → ℕ → ℚ) (N : ℕ) (lam : ℚ) : QUBO :=
  tspObjTerms M N ++ tspPenaltyTerms N lam

/-! ## The greedy fallback solver (`QuantumSolver._solve_greedy`) -/

/-- Does the dictionary contain the `('const',)` sentinel key?  Iterating
`for (i, j) in Q.keys()` over such a dictionary raises `ValueError`
("not enough values to unpack") in Python the moment the 1-tuple key is
reached. -/
def hasConstKey (Q : QUBO) : Bool := Q.any fun t => t.1 = QKey.const

/-- The `variables` set of `_solve_greedy`: endpoints of off-diagonal
keys only (`if i != j`). -/
def offDiagVars (Q : QUBO) : List ℕ :=
  (Q.flatMap fun t =>
    match t.1 with
    | QKey.pair i j => if i ≠ j then [i, j] else []
    | QKey.const => []).dedup

/-- The keys of the `linear_terms` dictionary of `_solve_greedy`:
variables that own a diagonal key `(i, i)`. -/
def diagVars (Q : QUBO) : List ℕ :=
  (Q.filterMap fun t =>
    match t.1 with
    | QKey.pair i j => if i = j then some i else none
    | QKey.const => none).dedup

/-- The aggregated diagonal (linear) coefficient of variable `v`:
`linear_terms[v]` of `_solve_greedy`. -/
def diagCoeff (Q : QUBO) (v : ℕ) : ℚ :=
  (Q.filterMap fun t =>
    match t.1 with
    | QKey.pair i j => if i = j ∧ i = v then some t.2 else none
    | QKey.const => none).sum

/-- The solution dictionary `_solve_greedy` builds, as an association
list: every off-diagonal variable gets an entry (1 when its aggregated
diagonal coefficient is negative, otherwise the initial 0), and the
greedy pass appends a fresh entry `1` for each diagonal variable with
negative coefficient that was not already initialised.  Variables that
occur only diagonally with non-negative coefficient never enter the
dictionary. -/
def greedyAssign (Q : QUBO) : List (ℕ × ℕ) :=
  ((offDiagVars Q).map fun v =>
    (v, if v ∈ diagVars Q ∧ diagCoeff Q v < 0 then 1 else 0))
    ++ (((diagVars Q).filter fun v =>
          diagCoeff Q v < 0 ∧ v ∉ offDiagVars Q).map fun v => (v, 1))

/-- Embedding of `QuantumSolver._solve_greedy`.  The first loop
`for (i, j) in Q.keys()` raises `ValueError` when the dictionary holds the
`('const',)` sentinel (modelled as `none`); otherwise the final solution
dictionary is returned. -/
def solveGreedy (Q : QUBO) : Option (List (ℕ × ℕ)) :=
  if hasConstKey Q then none else some (greedyAssign Q)

/-- All variables referenced by any quadratic or diagonal term of `Q`. -/
def refVars (Q : QUBO) : List ℕ :=
  (Q.flatMap fun t =>
    match t.1 with
    | QKey.pair i j => [i, j]
    | QKey.const => []).dedup

/-! ## QUBO energy

The value a term of the dictionary contributes to the QUBO objective under
an assignment `x` (binary variables read as rationals). -/

/-- Energy contribution of one dictionary term under assignment `x`. -/
def termEnergy (x : ℕ → ℚ) : QKey × ℚ → ℚ
  | (QKey.pair a b, c) => c * x a * x b
  | (QKey.const, c) => c

/-- Total energy contribution of a list of dictionary terms under `x`. -/
def termsEnergy (x : ℕ → ℚ) (ts : QUBO) : ℚ := (ts.map (termEnergy x)).sum

/-- A valid one-hot TSP assignment on `N` nodes: every decision variable
is binary, each node occupies exactly one position, and each position
hosts exactly one node (sums taken over the constraint groups). -/
def isOneHot (N : ℕ) (x : ℕ → ℚ) : Prop :=
  (∀ i ∈ List.range N, ∀ p ∈ List.range N,
      x (vidx N i p) = 0 ∨ x (vidx N i p) = 1)
    ∧ (∀ i ∈ List.range N, ((rowVars N i).map x).sum = 1)
    ∧ (∀ p ∈ List.range N, ((colVars N p).map x).sum = 1)

/-! ## Route metrics

`RouteOptimizer._calculate_route_time` (quantum_solver.py) and
`SimpleRouteOptimizer.calculate_route_time` (solver_simple.py) are
textually identical; both are embedded as `calcRouteTime`.  A time matrix
is modelled as a total function `ℕ → ℕ → ℚ`. -/

/-- Sum of the travel times of consecutive legs of a route. -/
def legsTime (M : ℕ → ℕ → ℚ) : List ℕ → ℚ
  | a :: b :: rest => M a b + legsTime M (b :: rest)
  | _ => 0

/-- The closing leg back to the depot: added when the route's last node
is not already the depot (node 0). -/
def returnTime (M : ℕ → ℕ → ℚ) (route : List ℕ) : ℚ :=
  match route.getLast? with
  | some l => if l = 0 then 0 else M l 0
  | none => 0

/-- Embedding of `calculate_route_time`: zero for routes shorter than 2 nodes,
otherwise leg times plus the closing leg to the depot. -/
def calcRouteTime (M : ℕ → ℕ → ℚ) (route : List ℕ) : ℚ :=
  if route.length < 2 then 0 else legsTime M route + returnTime M route

/-- Result record of `RouteOptimizer.compare_with_baseline`. -/
structure CompareResult where
  baselineTime : ℚ
  optimizedTime : ℚ
  improvementPercent : ℚ
  timeSaved : ℚ
deriving DecidableEq, Repr

/-- Embedding of `RouteOptimizer.compare_with_baseline`.  The improvement percentage
divides by `baseline_time` with no guard: when the baseline time is zero
Python raises `ZeroDivisionError` (or produces NaN on NumPy floats),
modelled as `none`. -/
def compareWithBaseline (M : ℕ → ℕ → ℚ) (baseline optimized : List ℕ) :
    Option CompareResult :=
  let baselineTime := calcRouteTime M baseline
  let optimizedTime := calcRouteTime M optimized
  if baselineTime = 0 then none
  else some
    { baselineTime := baselineTime
      optimizedTime := optimizedTime
      improvementPercent := (baselineTime - optimizedTime) / baselineTime * 100
      timeSaved := baselineTime - optimizedTime }

/-! ## The simplified optimizer (`solver_simple.py`) -/

/-- Python's `min(l, key=f)`: the first element of `l` attaining the
minimal key (later elements replace the running best only on a strictly
smaller key). -/
def argminBy {α : Type} (f : α → ℚ) : List α → Option α
  | [] => none
  | a :: rest => some (rest.foldl (fun best x => if f x < f best then x else best) a)

/-- Recursive core of `SimpleRouteOptimizer.nearest_neighbor`: repeatedly
append the unvisited node nearest to the current one.  The fuel argument
bounds the loop (the Python `while unvisited` loop runs exactly
`len(unvisited)` times since one node is removed per iteration). -/
def nnAux (M : ℕ → ℕ → ℚ) : ℕ → ℕ → List ℕ → List ℕ
  | 0, _, _ => []
  | f + 1, cur, unvis =>
    match argminBy (fun v => M cur v) unvis with
    | none => []
    | some nearest => nearest :: nnAux M f nearest (unvis.erase nearest)

/-- Embedding of `SimpleRouteOptimizer.nearest_neighbor` (also
`create_baseline_route` of quantum_solver.py, which is the same
algorithm): start at the depot and greedily visit the nearest unvisited
node. -/
def nearestNeighbor (M : ℕ → ℕ → ℚ) (n : ℕ) : List ℕ :=
  0 :: nnAux M (n - 1) 0 (List.range' 1 (n - 1))

/-- The 2-opt move `new_route[i:j] = reversed(new_route[i:j])` of
`SimpleRouteOptimizer.two_opt_improvement`. -/
def twoOptSwap (r : List ℕ) (i j : ℕ) : List ℕ :=
  r.take i ++ ((r.drop i).take (j - i)).reverse ++ r.drop j

/-- One scan of the nested `for i`/`for j` loops of
`two_opt_improvement`: the first candidate 2-opt move (in loop order,
`i ∈ range(1, len-2)`, `j ∈ range(i+2, len)`) that beats the current
best time by more than the 0.1 acceptance threshold. -/
def twoOptPass (M : ℕ → ℕ → ℚ) (r : List ℕ) : Option (List ℕ) :=
  (((List.range' 1 (r.length - 3)).map fun i =>
      (List.range' (i + 2) (r.length - (i + 2))).map fun j =>
        twoOptSwap r i j).flatten).find?
    fun nr => calcRouteTime M nr < calcRouteTime M r - 1 / 10

/-- The outer `for _ in range(10)` loop of `two_opt_improvement`: each of
the 10 iterations applies the first improving move found, if any (an
iteration that finds no improving move leaves the route unchanged, so
stopping early is equivalent). -/
def twoOptLoop (M : ℕ → ℕ → ℚ) : ℕ → List ℕ → List ℕ
  | 0, r => r
  | f + 1, r =>
    match twoOptPass M r with
    | none => r
    | some r' => twoOptLoop M f r'

/-- Embedding of `SimpleRouteOptimizer.two_opt_improvement`: routes of length ≤ 3 are
returned unchanged, otherwise 10 rounds of first-improvement 2-opt. -/
def twoOptImprovement (M : ℕ → ℕ → ℚ) (route : List ℕ) : List ℕ :=
  if route.length ≤ 3 then route else twoOptLoop M 10 route

/-- Embedding of `SimpleRouteOptimizer.random_route`.  Note: the Python body runs
`random.shuffle(route[1:])`, which shuffles a *temporary copy* of the
slice and discards it, so the function deterministically returns
`[0, 1, ..., n-1]`. -/
def randomRoute (n : ℕ) : List ℕ := 0 :: List.range' 1 (n - 1)

/-- Embedding of `SimpleRouteOptimizer.multi_strategy_optimize`: nearest neighbour,
its 2-opt improvement, and (for more than 3 nodes) a "random" start with
2-opt; returns the first strategy attaining the minimal route time. -/
def multiStrategy (M : ℕ → ℕ → ℚ) (n : ℕ) : List ℕ :=
  let nnRoute := nearestNeighbor M n
  let optRoute := twoOptImprovement M nnRoute
  let strategies :=
    if 3 < n then
      [nnRoute, optRoute, twoOptImprovement M (randomRoute n)]
    else
      [nnRoute, optRoute]
  (argminBy (fun r => calcRouteTime M r) strategies).getD nnRoute

/-- The fields of the result dictionary of
`SimpleRouteOptimizer.optimize_route` that the claims are about. -/
structure SimpleResult where
  baselineRoute : List ℕ
  baselineTime : ℚ
  optimizedRoute : List ℕ
  optimizedTime : ℚ
  improvementPercent : ℚ
  timeSaved : ℚ
deriving Repr

/-- Embedding of `SimpleRouteOptimizer.optimize_route`:
`improvement_percent = max(((baseline - optimized)/baseline) * 100, 5.0)`
and `time_saved = baseline * (improvement_percent / 100)`.  The division
has no zero guard: when the baseline time is zero the NumPy division
yields NaN, which poisons both reported figures; that outcome is
modelled as `none`. -/
def simpleOptimize (M : ℕ → ℕ → ℚ) (n : ℕ) : Option SimpleResult :=
  let baselineRoute := nearestNeighbor M n
  let baselineTime := calcRouteTime M baselineRoute
  let optimizedRoute := multiStrategy M n
  let optimizedTime := calcRouteTime M optimizedRoute
  if baselineTime = 0 then none
  else
    let improvementPercent := max ((baselineTime - optimizedTime) / baselineTime * 100) 5
    some
      { baselineRoute := baselineRoute
        baselineTime := baselineTime
        optimizedRoute := optimizedRoute
        optimizedTime := optimizedTime
        improvementPercent := improvementPercent
        timeSaved := baselineTime * (improvementPercent / 100) }

/-! ## The VRP decoder (`QUBOBuilder._extract_vrp_solution`) -/

/-- The `var_index` dictionary of `build_vrp_qubo` in insertion order:
one variable per (origin, destination, vehicle) triple with
origin ≠ destination, vehicle outermost, consecutively numbered. -/
def vrpVarIndex (N K : ℕ) : List ((ℕ × ℕ × ℕ) × ℕ) :=
  ((List.range K).flatMap fun k =>
    (List.range N).flatMap fun i =>
      ((List.range N).filter fun j => j ≠ i).map fun j => (i, j, k)).enum.map
    fun t => (t.2, t.1)

/-- The directed edges collected for vehicle `k`: every `(i, j, k)`
variable whose binary value is 1, in `var_index` iteration order. -/
def vehicleEdges (sol : ℕ → ℕ) (varIndex : List ((ℕ × ℕ × ℕ) × ℕ)) (k : ℕ) :
    List (ℕ × ℕ) :=
  varIndex.filterMap fun t =>
    if t.1.2.2 = k ∧ sol t.2 = 1 then some (t.1.1, t.1.2.1) else none

/-- The inner `for i, j in route_edges` search of the decoder walk: the
first collected edge whose source is the current node. -/
def findNext (edges : List (ℕ × ℕ)) (cur : ℕ) : Option ℕ :=
  (edges.find? fun e => e.1 = cur).map Prod.snd

/-- The `while True` walk of `_extract_vrp_solution`, made total with a
fuel parameter: one unit of fuel per loop iteration, `none` when the fuel
runs out while the Python loop would still be running.  The Python code
has no step bound of its own, so `(∀ fuel, vrpWalk … = none)` says the
Python loop never terminates. -/
def vrpWalk (edges : List (ℕ × ℕ)) : ℕ → ℕ → List ℕ → Option (List ℕ)
  | 0, _, _ => none
  | f + 1, cur, route =>
    match findNext edges cur with
    | none => some route
    | some nxt => if nxt = 0 then some route else vrpWalk edges f nxt (route ++ [nxt])

/-- Embedding of `QUBOBuilder._extract_vrp_solution`, fuelled: walks every vehicle's
edge set from the depot; a vehicle with no active edges is skipped, and a
resulting path that never advanced past the depot is discarded.  `none`
when some vehicle's walk exhausts the fuel. -/
def extractVrp (sol : ℕ → ℕ) (varIndex : List ((ℕ × ℕ × ℕ) × ℕ)) :
    ℕ → List ℕ → Option (List (List ℕ))
  | _, [] => some []
  | fuel, k :: ks =>
    let edges := vehicleEdges sol varIndex k
    if edges.isEmpty then extractVrp sol varIndex fuel ks
    else
      match vrpWalk edges fuel 0 [0] with
      | none => none
      | some r =>
        (extractVrp sol varIndex fuel ks).map fun rest =>
          if 1 < r.length then r :: rest else rest

/-- Embedding of `extract_solution(solution, var_index, 'vrp')` over `K` vehicles. -/
def extractVrpSolution (sol : ℕ → ℕ) (varIndex : List ((ℕ × ℕ × ℕ) × ℕ))
    (K fuel : ℕ) : Option (List (List ℕ)) :=
  extractVrp sol varIndex fuel (List.range K)

/-! ## The traffic simulator (`traffic_simulator.py`)

Coordinates are `(latitude, longitude)` pairs of rationals (the inputs
are decimal literals); the haversine computation itself lives in `ℝ`
because of the trigonometric functions.  `datetime` values are modelled
as rational minutes since an epoch midnight on a Monday, from which the
hour and the weekday are derived exactly as integer divisions. -/

/-- Embedding of `np.radians`: degrees to radians. -/
noncomputable def rad (q : ℚ) : ℝ := (q : ℝ) * Real.pi / 180

/-- Embedding of `TrafficPredictor.haversine_distance` (Earth radius 6371 km). -/
noncomputable def haversine (c1 c2 : ℚ × ℚ) : ℝ :=
  let lat1 := rad c1.1
  let lon1 := rad c1.2
  let lat2 := rad c2.1
  let lon2 := rad c2.2
  let dlat := lat2 - lat1
  let dlon := lon2 - lon1
  let a := Real.sin (dlat / 2) ^ 2
    + Real.cos lat1 * Real.cos lat2 * Real.sin (dlon / 2) ^ 2
  2 * Real.arcsin (Real.sqrt a) * 6371

/-- The hour of a clock value (minutes since a midnight epoch). -/
def hourOf (t : ℚ) : ℤ := ⌊t / 60⌋ % 24

/-- The weekday of a clock value (0 = Monday epoch day, … , 5/6 weekend). -/
def weekdayOf (t : ℚ) : ℤ := ⌊t / 1440⌋ % 7

/-- Embedding of `TrafficPredictor.weather_impact.get(weather, 1.0)`. -/
def weatherImpact (weather : String) : ℚ :=
  if weather = "clear" then 1
  else if weather = "rain" then 13 / 10
  else if weather = "fog" then 3 / 2
  else if weather = "storm" then 9 / 5
  else 1

/-- Embedding of `TrafficPredictor.get_time_multiplier`: ×1.4 inside a peak window
(the loop over `[(7,10), (17,20)]` breaks at the first match), ×0.8 on
weekends, times the weather impact. -/
def getTimeMultiplier (hour dayOfWeek : ℤ) (weather : String) : ℚ :=
  (if (7 ≤ hour ∧ hour ≤ 10) ∨ (17 ≤ hour ∧ hour ≤ 20) then 7 / 5 else 1)
    * (if 5 ≤ dayOfWeek then 4 / 5 else 1)
    * weatherImpact weather

/-- Embedding of `TrafficPredictor.predict_incident_impact`: table multiplier times
severity (unknown types default to 1.0). -/
def predictIncidentImpact (itype : String) (severity : ℚ) : ℚ :=
  (if itype = "accident" then 9 / 5
    else if itype = "construction" then 3 / 2
    else if itype = "road_closure" then 2
    else if itype = "protest" then 8 / 5
    else 1) * severity

/-- One entry of the simulator's `incidents` dictionary. -/
structure Incident where
  itype : String
  severity : ℚ
  startTime : ℚ
  endTime : ℚ
  multiplier : ℚ
deriving Repr

/-- The mutable `TrafficSimulator.incidents` dictionary.  Edge ids are
the Python strings `f"{i}-{j}"`, modelled by the pair `(i, j)` (the
formatting is injective on pairs of naturals).  Assignment to an existing
key overwrites, modelled by prepending (lookup finds the newest entry). -/
abbrev IncidentStore := List ((ℕ × ℕ) × Incident)

/-- Embedding of `TrafficSimulator.add_incident` with an explicit clock value for the
`datetime.now()` default; `duration_hours` converts to minutes. -/
def addIncident (store : IncidentStore) (edge : ℕ × ℕ) (itype : String)
    (severity : ℚ) (now : ℚ) (durationHours : ℚ) : IncidentStore :=
  (edge,
    { itype := itype
      severity := severity
      startTime := now
      endTime := now + durationHours * 60
      multiplier := predictIncidentImpact itype severity }) :: store

/-- Embedding of `TrafficSimulator.get_edge_multiplier`: the stored multiplier while
the incident window is active, 1.0 otherwise. -/
def getEdgeMultiplier (store : IncidentStore) (edge : ℕ × ℕ) (now : ℚ) : ℚ :=
  match store.lookup edge with
  | none => 1
  | some inc => if inc.startTime ≤ now ∧ now ≤ inc.endTime then inc.multiplier else 1

/-- One off-diagonal entry of the travel-time matrix: haversine distance
at 30 km/h converted to minutes, scaled by the time-of-day and incident
multipliers. -/
noncomputable def travelTimeEntry (store : IncidentStore)
    (coords : List (ℚ × ℚ)) (now : ℚ) (weather : String) (i j : ℕ) : ℝ :=
  let distanceKm := haversine (coords.getD i (0, 0)) (coords.getD j (0, 0))
  let baseTimeMinutes := distanceKm / 30 * 60
  baseTimeMinutes *
    ((getTimeMultiplier (hourOf now) (weekdayOf now) weather
        * getEdgeMultiplier store (i, j) now : ℚ) : ℝ)

/-- Embedding of `TrafficSimulator.compute_travel_time_matrix` with an explicit clock
value for the `datetime.now()` default: an `n × n` matrix with zero
diagonal (`np.zeros` entries that the `i == j` branch skips). -/
noncomputable def computeTravelTimeMatrix (store : IncidentStore)
    (coords : List (ℚ × ℚ)) (now : ℚ) (weather : String) : List (List ℝ) :=
  (List.range coords.length).map fun i =>
    (List.range coords.length).map fun j =>
      if i = j then 0 else travelTimeEntry store coords now weather i j

/-- Entry access `matrix[i][j]` for the list-of-lists matrix. -/
def matEntry (m : List (List ℝ)) (i j : ℕ) : ℝ := (m.getD i []).getD j 0

/-- Embedding of `current_time.replace(hour=8, minute=30)` for the `peak` scenario
(seconds are dropped; the code never reads them). -/
def replacePeakTime (t : ℚ) : ℚ := 1440 * ⌊t / 1440⌋ + 8 * 60 + 30

/-- Embedding of `TrafficSimulator.simulate_scenario` with an explicit clock value for
`datetime.now()`: returns the travel-time matrix and the simulator state
after the call.  The `incident` and `storm` branches mutate the incident
store; the local `incidents = {}` of the other branches is dead code and
never clears it.  Unknown scenario names leave `weather` unbound in
Python (a `NameError`), modelled as `none`. -/
noncomputable def simulateScenario (store : IncidentStore)
    (coords : List (ℚ × ℚ)) (scenario : String) (now : ℚ) :
    Option (List (List ℝ) × IncidentStore) :=
  if scenario = "normal" then
    some (computeTravelTimeMatrix store coords now "clear", store)
  else if scenario = "peak" then
    some (computeTravelTimeMatrix store coords (replacePeakTime now) "clear", store)
  else if scenario = "incident" then
    let store1 := addIncident store (0, 1) "accident" (3 / 2) now 2
    let store2 := addIncident store1 (1, 2) "construction" (6 / 5) now 2
    some (computeTravelTimeMatrix store2 coords now "rain", store2)
  else if scenario = "storm" then
    let store' := (List.range (coords.length - 1)).foldl
      (fun s i => addIncident s (i, i + 1) "road_closure" 2 now 2) store
    some (computeTravelTimeMatrix store' coords now "storm", store')
  else none

/-- The validity predicate the specification's failure-mode sentence
quantifies over: finite latitude in [-90, 90] and longitude in
[-180, 180] for every coordinate (rational inputs are always finite). -/
def validCoordList (coords : List (ℚ × ℚ)) : Prop :=
  ∀ c ∈ coords, -90 ≤ c.1 ∧ c.1 ≤ 90 ∧ -180 ≤ c.2 ∧ c.2 ≤ 180

instance : DecidablePred validCoordList := fun _ => by
  unfold validCoordList; infer_instance

/-! ## Concrete inputs used by the refutations -/

/-- A binary assignment for the 3-node, 1-vehicle VRP that activates the
edges (0→1), (1→2) and (2→1) — a tail leading into a cycle that avoids
the depot.  In `vrpVarIndex 3 1` these are the variables 0, 3 and 5. -/
def vrpCycleSol : ℕ → ℕ := fun v => if v = 0 ∨ v = 3 ∨ v = 5 then 1 else 0

/-- The edge list `vrpCycleSol` induces for vehicle 0. -/
lemma vrpCycleSol_edges :
    vehicleEdges vrpCycleSol (vrpVarIndex 3 1) 0 = [(0, 1), (1, 2), (2, 1)] := by
  decide

/-- From node 1 or node 2, the decoder walk over the cyclic edge list
keeps alternating 1 → 2 → 1 → … and consumes any amount of fuel. -/
lemma vrpWalk_cycle_stuck (f : ℕ) :
    ∀ acc : List ℕ, vrpWalk [(0, 1), (1, 2), (2, 1)] f 1 acc = none
      ∧ vrpWalk [(0, 1), (1, 2), (2, 1)] f 2 acc = none := by
  induction f with
  | zero => intro acc; exact ⟨rfl, rfl⟩
  | succ f ih =>
    intro acc
    refine ⟨?_, ?_⟩
    · show vrpWalk _ (f + 1) 1 acc = none
      simp only [vrpWalk, findNext, List.find?]
      norm_num
      exact (ih _).2
    · show vrpWalk _ (f + 1) 2 acc = none
      simp only [vrpWalk, findNext, List.find?]
      norm_num
      exact (ih _).1

/-- The depot-started walk over the cyclic edge list exhausts any fuel. -/
lemma vrpWalk_cycle_none (f : ℕ) :
    vrpWalk [(0, 1), (1, 2), (2, 1)] f 0 [0] = none := by
  cases f with
  | zero => rfl
  | succ f =>
    show vrpWalk _ (f + 1) 0 [0] = none
    simp only [vrpWalk, findNext, List.find?]
    norm_num
    exact (vrpWalk_cycle_stuck f _).1

/-! ## Claim C3 -/

/-- Claim C3 (refuted — code bug): the claim states that for every binary
assignment, including malformed ones whose selected edges form a cycle
not returning to the depot, the VRP decoder's depot-started walk stops
after finitely many steps.  The code has no visited-set and no step
bound, so on the assignment `vrpCycleSol` (edges 0→1, 1→2, 2→1 for
vehicle 0) the `while True` walk revisits nodes 1 and 2 forever: the
fuelled embedding fails to finish for *every* fuel bound. -/
theorem claim_C3_vrp_decoder_walk_nonterminating (fuel : ℕ) :
    extractVrpSolution vrpCycleSol (vrpVarIndex 3 1) 1 fuel = none := by
  show extractVrp vrpCycleSol (vrpVarIndex 3 1) fuel [0] = none
  simp only [extractVrp, vrpCycleSol_edges, vrpWalk_cycle_none fuel,
    List.isEmpty_cons]
  rfl

/-! ## Claim C10 -/

/-- A 2-opt segment reversal is a permutation of the route. -/
lemma twoOptSwap_perm (r : List ℕ) (i j : ℕ) (hij : i ≤ j) :
    (twoOptSwap r i j).Perm r := by
  have hdd : (r.drop i).drop (j - i) = r.drop j := by
    rw [List.drop_drop]
    congr 1
    omega
  have hmid : (r.drop i).take (j - i) ++ r.drop j = r.drop i := by
    rw [← hdd]
    exact List.take_append_drop _ _
  have p1 : (twoOptSwap r i j).Perm
      (r.take i ++ ((r.drop i).take (j - i) ++ r.drop j)) := by
    unfold twoOptSwap
    rw [List.append_assoc]
    exact ((List.reverse_perm _).append_right _).append_left _
  rw [hmid, List.take_append_drop] at p1
  exact p1

/-- A 2-opt segment reversal with `1 ≤ i` keeps the first element. -/
lemma twoOptSwap_head? (r : List ℕ) (i j : ℕ) (hi : 1 ≤ i) :
    (twoOptSwap r i j).head? = r.head? := by
  obtain ⟨i', rfl⟩ : ∃ i', i = i' + 1 := ⟨i - 1, by omega⟩
  cases r with
  | nil => simp [twoOptSwap]
  | cons a rs => simp [twoOptSwap, List.take_succ_cons]

/-- A successful 2-opt scan returns a permutation of the input route that
keeps the head and does not increase the route time. -/
lemma twoOptPass_some {M : ℕ → ℕ → ℚ} {r r' : List ℕ}
    (h : twoOptPass M r = some r') :
    r'.Perm r ∧ r'.head? = r.head?
      ∧ calcRouteTime M r' ≤ calcRouteTime M r := by
  have hmem := List.mem_of_find?_eq_some h
  have hcond := List.find?_some h
  simp only [decide_eq_true_eq] at hcond
  simp only [List.mem_flatten, List.mem_map] at hmem
  obtain ⟨inner, ⟨i, hi, rfl⟩, hin⟩ := hmem
  simp only [List.mem_map] at hin
  obtain ⟨j, hj, rfl⟩ := hin
  have hi1 : 1 ≤ i := (List.mem_range'_1.1 hi).1
  have hij : i ≤ j := by
    have := (List.mem_range'_1.1 hj).1
    omega
  exact ⟨twoOptSwap_perm r i j hij, twoOptSwap_head? r i j hi1, by linarith⟩

/-- The ten-round first-improvement loop returns a permutation of its
input with the same head and no larger route time. -/
lemma twoOptLoop_props (M : ℕ → ℕ → ℚ) (f : ℕ) :
    ∀ r : List ℕ, (twoOptLoop M f r).Perm r
      ∧ (twoOptLoop M f r).head? = r.head?
      ∧ calcRouteTime M (twoOptLoop M f r) ≤ calcRouteTime M r := by
  induction f with
  | zero => exact fun r => ⟨.refl _, rfl, le_refl _⟩
  | succ f ih =>
    intro r
    cases hp : twoOptPass M r with
    | none =>
      have heq : twoOptLoop M (f + 1) r = r := by simp [twoOptLoop, hp]
      rw [heq]
      exact ⟨.refl _, rfl, le_refl _⟩
    | some r' =>
      have heq : twoOptLoop M (f + 1) r = twoOptLoop M f r' := by
        simp [twoOptLoop, hp]
      rw [heq]
      obtain ⟨hperm, hhead, hle⟩ := twoOptPass_some hp
      obtain ⟨ihp, ihh, ihle⟩ := ih r'
      exact ⟨ihp.trans hperm, ihh.trans hhead, ihle.trans hle⟩

/-- Claim C10 (confirmed): for every route of length at least 2 whose
entries index the matrix, `two_opt_improvement` returns a permutation of
the input route with the same first element, and its
`calculate_route_time` is at most that of the input route. -/
theorem claim_C10_two_opt_perm_head_no_worse (M : ℕ → ℕ → ℚ) (n : ℕ)
    (route : List ℕ) (h2 : 2 ≤ route.length) (hidx : ∀ v ∈ route, v < n) :
    (twoOptImprovement M route).Perm route
      ∧ (twoOptImprovement M route).head? = route.head?
      ∧ calcRouteTime M (twoOptImprovement M route)
          ≤ calcRouteTime M route := by
  unfold twoOptImprovement
  split
  · exact ⟨.refl _, rfl, le_refl _⟩
  · exact twoOptLoop_props M 10 route

/-- Witness for C10: the depot-plus-one-stop route `[0, 1]` on the
all-ones matrix satisfies the hypotheses, and the theorem yields the
conclusion for it. -/
theorem claim_C10_witness :
    (2 ≤ ([0, 1] : List ℕ).length ∧ ∀ v ∈ ([0, 1] : List ℕ), v < 2)
      ∧ ((twoOptImprovement (fun _ _ => (1 : ℚ)) [0, 1]).Perm [0, 1]
        ∧ (twoOptImprovement (fun _ _ => (1 : ℚ)) [0, 1]).head?
            = ([0, 1] : List ℕ).head?
        ∧ calcRouteTime (fun _ _ => (1 : ℚ))
              (twoOptImprovement (fun _ _ => (1 : ℚ)) [0, 1])
            ≤ calcRouteTime (fun _ _ => (1 : ℚ)) [0, 1]) :=
  ⟨⟨by decide, by decide⟩,
    claim_C10_two_opt_perm_head_no_worse (fun _ _ => 1) 2 [0, 1]
      (by decide) (by decide)⟩

/-! ## Claim C4 -/

/-- Looking a key up in a key-tagged map of a list yields the tag. -/
lemma lookup_map_self {f : ℕ → ℕ} {l : List ℕ} {v : ℕ} (h : v ∈ l) :
    (l.map fun w => (w, f w)).lookup v = some (f v) := by
  induction l with
  | nil => cases h
  | cons a t ih =>
    rcases List.mem_cons.1 h with rfl | ht
    · simp [List.lookup]
    · by_cases hva : v = a
      · subst hva; simp [List.lookup]
      · have hb : (v == a) = false := by simp [hva]
        simp only [List.map_cons, List.lookup, hb]
        exact ih ht

/-- Looking up a key absent from a key-tagged map of a list fails. -/
lemma lookup_map_self_none {f : ℕ → ℕ} {l : List ℕ} {v : ℕ} (h : v ∉ l) :
    (l.map fun w => (w, f w)).lookup v = none := by
  induction l with
  | nil => rfl
  | cons a t ih =>
    have hva : v ≠ a := fun e => h (e ▸ List.mem_cons_self a t)
    have ht : v ∉ t := fun e => h (List.mem_cons_of_mem a e)
    have hb : (v == a) = false := by simp [hva]
    simp only [List.map_cons, List.lookup, hb]
    exact ih ht

/-- Lookup distributes over append, preferring the left list. -/
lemma lookup_append {l₁ l₂ : List (ℕ × ℕ)} {v : ℕ} :
    (l₁ ++ l₂).lookup v = ((l₁.lookup v).or (l₂.lookup v)) := by
  induction l₁ with
  | nil => rfl
  | cons a t ih =>
    by_cases hva : v = a.1
    · subst hva; simp [List.lookup]
    · have hb : (v == a.1) = false := by simp [hva]
      simp only [List.cons_append, List.lookup, hb]
      exact ih

/-- Claim C4 (amended, proved): for every QUBO dictionary free of the
`('const',)` sentinel, the greedy fallback returns an assignment with a
binary entry for every variable of an *off-diagonal* quadratic term and
for every diagonal-term variable whose aggregated diagonal coefficient is
negative.  (The original claim — an entry for *every* referenced
variable — fails: see the counterexample.) -/
theorem claim_C4_greedy_covers_offdiag_and_negative_diag (Q : QUBO) (v : ℕ)
    (hconst : hasConstKey Q = false)
    (hv : v ∈ offDiagVars Q ∨ (v ∈ diagVars Q ∧ diagCoeff Q v < 0)) :
    ∃ b, solveGreedy Q = some (greedyAssign Q)
      ∧ (greedyAssign Q).lookup v = some b ∧ (b = 0 ∨ b = 1) := by
  have hsg : solveGreedy Q = some (greedyAssign Q) := by
    simp [solveGreedy, hconst]
  by_cases hod : v ∈ offDiagVars Q
  · refine ⟨if v ∈ diagVars Q ∧ diagCoeff Q v < 0 then 1 else 0, hsg, ?_, ?_⟩
    · unfold greedyAssign
      rw [lookup_append,
        lookup_map_self (f := fun v =>
          if v ∈ diagVars Q ∧ diagCoeff Q v < 0 then 1 else 0) hod]
      rfl
    · split <;> simp
  · rcases hv with h | ⟨hd, hneg⟩
    · exact absurd h hod
    refine ⟨1, hsg, ?_, Or.inr rfl⟩
    unfold greedyAssign
    rw [lookup_append,
      lookup_map_self_none (f := fun v =>
        if v ∈ diagVars Q ∧ diagCoeff Q v < 0 then 1 else 0) hod]
    have hvf : v ∈ (diagVars Q).filter
        fun v => decide (diagCoeff Q v < 0 ∧ v ∉ offDiagVars Q) :=
      List.mem_filter.2 ⟨hd, by simp [hneg, hod]⟩
    rw [Option.none_or, lookup_map_self (f := fun _ => 1) hvf]

/-- Witness for C4: on `[(pair 0 1, 3), (pair 0 0, -2)]` — no sentinel
key, variable 0 off-diagonal — the theorem produces a binary entry. -/
theorem claim_C4_witness :
    (hasConstKey [(QKey.pair 0 1, (3 : ℚ)), (QKey.pair 0 0, -2)] = false
      ∧ 0 ∈ offDiagVars [(QKey.pair 0 1, (3 : ℚ)), (QKey.pair 0 0, -2)])
    ∧ ∃ b, solveGreedy [(QKey.pair 0 1, (3 : ℚ)), (QKey.pair 0 0, -2)]
        = some (greedyAssign [(QKey.pair 0 1, (3 : ℚ)), (QKey.pair 0 0, -2)])
      ∧ (greedyAssign [(QKey.pair 0 1, (3 : ℚ)), (QKey.pair 0 0, -2)]).lookup 0
          = some b ∧ (b = 0 ∨ b = 1) :=
  ⟨⟨by decide, by decide⟩,
    claim_C4_greedy_covers_offdiag_and_negative_diag _ 0 (by decide)
      (Or.inl (by decide))⟩

/-- Counterexample for C4 as frozen: the dictionary `{(0,0): 5}`
references variable 0 in a diagonal term, yet the greedy solver returns
the *empty* assignment — variable 0 receives no entry (its diagonal
coefficient is non-negative and it appears in no off-diagonal term). -/
theorem claim_C4_counterexample :
    0 ∈ refVars [(QKey.pair 0 0, (5 : ℚ))]
      ∧ solveGreedy [(QKey.pair 0 0, (5 : ℚ))] = some [] := by
  constructor
  · decide
  · show solveGreedy [(QKey.pair 0 0, (5 : ℚ))] = some []
    have h5 : ¬((5 : ℚ) + 0 < 0) := by norm_num
    simp [solveGreedy, hasConstKey, greedyAssign, offDiagVars, diagVars,
      diagCoeff, List.filterMap, List.flatMap, h5]

/-! ## Claim C2 -/

/-- A list of 0/1 rationals has a non-negative sum. -/
lemma sum01_nonneg {l : List ℚ} (h : ∀ v ∈ l, v = 0 ∨ v = 1) : 0 ≤ l.sum := by
  induction l with
  | nil => simp
  | cons a t ih =>
    have ha := h a (List.mem_cons_self a t)
    have ht := ih fun v hv => h v (List.mem_cons_of_mem a hv)
    rcases ha with rfl | rfl <;> simp <;> linarith

/-- A list of 0/1 rationals summing to 0 is all zero. -/
lemma sum01_eq_zero {l : List ℚ} (h : ∀ v ∈ l, v = 0 ∨ v = 1)
    (hs : l.sum = 0) : ∀ v ∈ l, v = 0 := by
  induction l with
  | nil => simp
  | cons a t ih =>
    have ha := h a (List.mem_cons_self a t)
    have ht : ∀ v ∈ t, v = 0 ∨ v = 1 := fun v hv => h v (List.mem_cons_of_mem a hv)
    have htn := sum01_nonneg ht
    rw [List.sum_cons] at hs
    rcases ha with rfl | rfl
    · intro v hv
      rcases List.mem_cons.1 hv with rfl | hvt
      · rfl
      · exact ih ht (by linarith) v hvt
    · linarith

/-- The sum of all pairwise products of the elements of a list, taken at
strictly increasing position pairs. -/
def pairProds : List ℚ → ℚ
  | [] => 0
  | a :: rest => a * rest.sum + pairProds rest

/-- The value of `pairProds` on an all-zero list vanishes. -/
lemma pairProds_of_all_zero {l : List ℚ} (h : ∀ v ∈ l, v = 0) :
    pairProds l = 0 := by
  induction l with
  | nil => rfl
  | cons a t ih =>
    have ha := h a (List.mem_cons_self a t)
    rw [pairProds, ha, ih fun v hv => h v (List.mem_cons_of_mem a hv)]
    ring

/-- For 0/1 values summing to 1 (a satisfied one-hot group) all pairwise
products vanish. -/
lemma pairProds_of_oneHot {l : List ℚ} (h : ∀ v ∈ l, v = 0 ∨ v = 1)
    (hs : l.sum = 1) : pairProds l = 0 := by
  induction l with
  | nil => simp at hs
  | cons a t ih =>
    have ha := h a (List.mem_cons_self a t)
    have ht : ∀ v ∈ t, v = 0 ∨ v = 1 := fun v hv => h v (List.mem_cons_of_mem a hv)
    rw [List.sum_cons] at hs
    rcases ha with rfl | rfl
    · rw [pairProds, ih ht (by linarith)]
      ring
    · have htz : t.sum = 0 := by linarith
      rw [pairProds, htz, pairProds_of_all_zero (sum01_eq_zero ht htz)]
      ring

/-- The energy `termsEnergy` is additive over list append. -/
lemma termsEnergy_append (x : ℕ → ℚ) (A B : QUBO) :
    termsEnergy x (A ++ B) = termsEnergy x A + termsEnergy x B := by
  simp [termsEnergy]

/-- The energy `termsEnergy` of a flattened list of blocks is the sum of the block
energies. -/
lemma termsEnergy_flatten (x : ℕ → ℚ) (ls : List QUBO) :
    termsEnergy x ls.flatten = (ls.map (termsEnergy x)).sum := by
  induction ls with
  | nil => rfl
  | cons a t ih => rw [List.flatten_cons, termsEnergy_append, ih,
      List.map_cons, List.sum_cons]

/-- The one-row cross block `[(a,b) for b in t]` of the pair terms sums
to `2λ · x a · Σ x(t)`. -/
lemma crossRow_energy (x : ℕ → ℚ) (lam : ℚ) (a : ℕ) (t : List ℕ) :
    termsEnergy x (t.map fun b => (QKey.pair a b, 2 * lam))
      = 2 * lam * (x a * (t.map x).sum) := by
  induction t with
  | nil => simp [termsEnergy]
  | cons b s ihs =>
    rw [List.map_cons, show termsEnergy x ((QKey.pair a b, 2 * lam) :: _)
        = 2 * lam * x a * x b
          + termsEnergy x (s.map fun b => (QKey.pair a b, 2 * lam)) from rfl,
      ihs, List.map_cons, List.sum_cons]
    ring

/-- The cross-term block of `oneHotTerms` evaluates to
`2λ · pairProds` of the group's values. -/
lemma combos2_energy (x : ℕ → ℚ) (lam : ℚ) (vars : List ℕ) :
    termsEnergy x ((combos2 vars).map fun ab => (QKey.pair ab.1 ab.2, 2 * lam))
      = 2 * lam * pairProds (vars.map x) := by
  induction vars with
  | nil => simp [combos2, pairProds, termsEnergy]
  | cons a t ih =>
    rw [combos2, List.map_append, termsEnergy_append, ih, List.map_cons,
      pairProds]
    rw [show ((t.map fun b => (a, b)).map fun ab =>
        (QKey.pair ab.1 ab.2, 2 * lam))
        = t.map fun b => (QKey.pair a b, 2 * lam) by
      rw [List.map_map]
      rfl]
    rw [crossRow_energy]
    ring

/-- The diagonal block of `oneHotTerms` over 0/1 values sums to
`-2λ · Σ x(vars)` (each value equals its own square). -/
lemma diagBlock_energy (x : ℕ → ℚ) (lam : ℚ) :
    ∀ vars : List ℕ, (∀ v ∈ vars, x v = 0 ∨ x v = 1) →
      termsEnergy x (vars.map fun a => (QKey.pair a a, -2 * lam))
        = -2 * lam * (vars.map x).sum := by
  intro vars
  induction vars with
  | nil => simp [termsEnergy]
  | cons a t iht =>
    intro h01
    have ha := h01 a (List.mem_cons_self a t)
    have iht' := iht fun v hv => h01 v (List.mem_cons_of_mem a hv)
    rw [List.map_cons, show termsEnergy x ((QKey.pair a a, -2 * lam) :: _)
        = -2 * lam * x a * x a
          + termsEnergy x (t.map fun a => (QKey.pair a a, -2 * lam)) from rfl,
      iht', List.map_cons, List.sum_cons]
    rcases ha with h0 | h1
    · rw [h0]; ring
    · rw [h1]; ring

/-- One one-hot constraint group contributes exactly `-λ` (not 0) to the
energy of a satisfied assignment: the pairwise `+2λ` terms vanish, the
diagonal `-2λ` terms contribute `-2λ`, and the `+λ` constant remains. -/
lemma oneHotTerms_energy (x : ℕ → ℚ) (lam : ℚ) (vars : List ℕ)
    (h01 : ∀ v ∈ vars, x v = 0 ∨ x v = 1)
    (hsum : (vars.map x).sum = 1) :
    termsEnergy x (oneHotTerms lam vars) = -lam := by
  unfold oneHotTerms
  rw [termsEnergy_append, termsEnergy_append, combos2_energy,
    pairProds_of_oneHot (fun v hv => by
      obtain ⟨w, hw, rfl⟩ := List.mem_map.1 hv
      exact h01 w hw) hsum,
    diagBlock_energy x lam vars h01, hsum,
    show termsEnergy x [(QKey.const, lam)] = lam by
      simp [termsEnergy, termEnergy]]
  ring

/-- Sum of a constant rational over `range n`. -/
lemma sum_map_const_rat (n : ℕ) (c : ℚ) :
    ((List.range n).map fun _ => c).sum = n * c := by
  induction n with
  | zero => simp
  | succ n ih =>
    rw [List.range_succ, List.map_append, List.sum_append, ih]
    push_cast
    simp
    ring

/-- Sum of a constant natural over `range n`. -/
lemma sum_map_const_nat (n c : ℕ) :
    ((List.range n).map fun _ => c).sum = n * c := by
  induction n with
  | zero => simp
  | succ m ih =>
    rw [List.range_succ, List.map_append, List.sum_append, ih]
    simp [Nat.succ_mul]

/-- The encoder creates exactly `N²` decision variables. -/
lemma tspVarIndex_length (N : ℕ) : (tspVarIndex N).length = N * N := by
  rw [tspVarIndex, List.length_flatten, List.map_map]
  rw [List.map_congr_left (g := fun _ : ℕ => N) fun i _ => by simp]
  exact sum_map_const_nat N N

/-- The two penalty families together contribute exactly `-2Nλ` to the
energy of every valid one-hot assignment: `-λ` for each of the `N` node
constraints and each of the `N` position constraints. -/
lemma tspPenaltyTerms_energy (N : ℕ) (lam : ℚ) (x : ℕ → ℚ)
    (hx : isOneHot N x) :
    termsEnergy x (tspPenaltyTerms N lam) = -(2 * (N : ℚ) * lam) := by
  obtain ⟨h01, hrow, hcol⟩ := hx
  rw [tspPenaltyTerms, termsEnergy_append, termsEnergy_flatten,
    termsEnergy_flatten, List.map_map, List.map_map]
  have hrows : ((List.range N).map
      (termsEnergy x ∘ fun i => oneHotTerms lam (rowVars N i)))
      = (List.range N).map fun _ => -lam :=
    List.map_congr_left fun i hi => by
      show termsEnergy x (oneHotTerms lam (rowVars N i)) = -lam
      refine oneHotTerms_energy x lam (rowVars N i) ?_ (hrow i hi)
      intro v hv
      obtain ⟨p, hp, rfl⟩ := List.mem_map.1 hv
      exact h01 i hi p hp
  have hcols : ((List.range N).map
      (termsEnergy x ∘ fun p => oneHotTerms lam (colVars N p)))
      = (List.range N).map fun _ => -lam :=
    List.map_congr_left fun p hp => by
      show termsEnergy x (oneHotTerms lam (colVars N p)) = -lam
      refine oneHotTerms_energy x lam (colVars N p) ?_ (hcol p hp)
      intro v hv
      obtain ⟨i, hi, rfl⟩ := List.mem_map.1 hv
      exact h01 i hi p hp
  rw [hrows, hcols, sum_map_const_rat]
  ring

/-- Claim C2 (amended, proved): `build_time_dependent_tsp_qubo` on an
`N × N` matrix creates exactly `N²` decision variables, and for every
valid one-hot assignment the two constraint-penalty families contribute
exactly `-2Nλ` — not 0 — to the QUBO energy (the code's `-2λ` diagonal
together with the `+λ` constant leaves a `-λ` residue per satisfied
constraint because the `+λ·Σx²` part of the squared-deviation expansion
is missing from the diagonal). -/
theorem claim_C2_nsq_vars_and_penalty_energy (N : ℕ) (lam : ℚ) (x : ℕ → ℚ)
    (hx : isOneHot N x) :
    (tspVarIndex N).length = N * N
      ∧ termsEnergy x (tspPenaltyTerms N lam) = -(2 * (N : ℚ) * lam) :=
  ⟨tspVarIndex_length N, tspPenaltyTerms_energy N lam x hx⟩

/-- The valid one-hot assignment on 2 nodes that puts node 0 at
position 0 and node 1 at position 1 (variables 0 and 3 set). -/
def oneHotX2 : ℕ → ℚ := fun v => if v = 0 ∨ v = 3 then 1 else 0

/-- The assignment `oneHotX2` is a valid one-hot assignment for `N = 2`. -/
lemma oneHotX2_isOneHot : isOneHot 2 oneHotX2 := by
  refine ⟨by decide, ?_, ?_⟩
  · intro i hi
    rw [List.mem_range] at hi
    interval_cases i
    · show ([(1 : ℚ), 0]).sum = 1
      norm_num
    · show ([(0 : ℚ), 1]).sum = 1
      norm_num
  · intro p hp
    rw [List.mem_range] at hp
    interval_cases p
    · show ([(1 : ℚ), 0]).sum = 1
      norm_num
    · show ([(0 : ℚ), 1]).sum = 1
      norm_num

/-- Counterexample for C2 as frozen: with the default penalty weight
`λ = 100` on 2 nodes, the valid one-hot assignment `oneHotX2` receives a
constraint-penalty energy of `-400 ≠ 0`. -/
theorem claim_C2_counterexample :
    isOneHot 2 oneHotX2
      ∧ termsEnergy oneHotX2 (tspPenaltyTerms 2 100) ≠ 0 := by
  refine ⟨oneHotX2_isOneHot, ?_⟩
  rw [tspPenaltyTerms_energy 2 100 oneHotX2 oneHotX2_isOneHot]
  norm_num

/-- Witness for C2: the amended theorem instantiated at `N = 2`,
`λ = 100` and the concrete one-hot assignment `oneHotX2`. -/
theorem claim_C2_witness :
    isOneHot 2 oneHotX2
      ∧ ((tspVarIndex 2).length = 2 * 2
        ∧ termsEnergy oneHotX2 (tspPenaltyTerms 2 100)
            = -(2 * ((2 : ℕ) : ℚ) * 100)) :=
  ⟨oneHotX2_isOneHot,
    claim_C2_nsq_vars_and_penalty_energy 2 100 oneHotX2 oneHotX2_isOneHot⟩

/-! ## Claim C1 -/

/-- Every encoder run with `N ≥ 1` leaves the `('const',)` sentinel in
the penalty family (the constraint loop body runs at least once). -/
lemma const_mem_tspPenaltyTerms (N : ℕ) (lam : ℚ) (hN : 1 ≤ N) :
    (QKey.const, lam) ∈ tspPenaltyTerms N lam := by
  rw [tspPenaltyTerms]
  refine List.mem_append.2 (Or.inl ?_)
  rw [List.mem_flatten]
  refine ⟨oneHotTerms lam (rowVars N 0), List.mem_map.2 ⟨0, ?_, rfl⟩, ?_⟩
  · rw [List.mem_range]
    omega
  · rw [oneHotTerms]
    exact List.mem_append.2 (Or.inr (List.mem_singleton.2 rfl))

/-- Claim C1 (refuted — code bug): the claim states that `solve_qubo`
always hands the caller an assignment and that the greedy fallback
succeeds on every encoder-produced QUBO, including its constant-offset
entry.  In fact, for every time matrix with `N ≥ 1` the encoder's
dictionary contains the 1-tuple sentinel key `('const',)`, and
`_solve_greedy`'s very first loop `for (i, j) in Q.keys()` raises
`ValueError` unpacking it (modelled as `none`); `solve_qubo`'s greedy
branch — and every backend's exception handler, which also lands in
`_solve_greedy` — propagates that exception to the caller. -/
theorem claim_C1_greedy_raises_on_encoder_qubo (M : ℕ → ℕ → ℚ) (N : ℕ)
    (lam : ℚ) (hN : 1 ≤ N) :
    solveGreedy (tspQUBO M N lam) = none := by
  have hc : hasConstKey (tspQUBO M N lam) = true := by
    rw [hasConstKey, List.any_eq_true]
    refine ⟨(QKey.const, lam), ?_, by simp⟩
    rw [tspQUBO]
    exact List.mem_append.2 (Or.inr (const_mem_tspPenaltyTerms N lam hN))
  simp [solveGreedy, hc]

/-- Witness for C1: the greedy solver raises on the QUBO built from the
all-ones 2×2 time matrix with the default penalty weight. -/
theorem claim_C1_witness :
    solveGreedy (tspQUBO (fun _ _ => (1 : ℚ)) 2 100) = none :=
  claim_C1_greedy_raises_on_encoder_qubo (fun _ _ => 1) 2 100 (by norm_num)

/-! ## Claim C7 -/

/-- Claim C7 (refuted — code bug): the claim asserts that comparing a
route with itself yields a 0% improvement and zero time saved, *with the
`baseline_time == 0` case guarded*.  `compare_with_baseline` has no such
guard: on the route `[0]` (route time 0) the improvement expression
divides by zero — Python raises `ZeroDivisionError` (NaN on NumPy
floats) instead of returning the claimed zeros.  The embedding evaluates
the code at that failing input to the raised outcome `none`. -/
theorem claim_C7_compare_unguarded_zero_division :
    compareWithBaseline (fun _ _ => (1 : ℚ)) [0] [0] = none := by
  rfl

/-! ## Claim C9 -/

/-- Leg times over a non-negative matrix are non-negative. -/
lemma legsTime_nonneg {M : ℕ → ℕ → ℚ} (hM : ∀ i j, 0 ≤ M i j) :
    ∀ r : List ℕ, 0 ≤ legsTime M r := by
  intro r
  induction r with
  | nil => simp [legsTime]
  | cons a t ih =>
    cases t with
    | nil => simp [legsTime]
    | cons b s =>
      rw [legsTime]
      have := hM a b
      have := ih
      positivity

/-- The closing leg over a non-negative matrix is non-negative. -/
lemma returnTime_nonneg {M : ℕ → ℕ → ℚ} (hM : ∀ i j, 0 ≤ M i j)
    (r : List ℕ) : 0 ≤ returnTime M r := by
  rw [returnTime]
  cases r.getLast? with
  | none => simp
  | some l =>
    dsimp only
    split
    · exact le_refl 0
    · exact hM l 0

/-- Route times over a non-negative matrix are non-negative. -/
lemma calcRouteTime_nonneg {M : ℕ → ℕ → ℚ} (hM : ∀ i j, 0 ≤ M i j)
    (r : List ℕ) : 0 ≤ calcRouteTime M r := by
  rw [calcRouteTime]
  split
  · exact le_refl 0
  · have := legsTime_nonneg hM r
    have := returnTime_nonneg hM r
    linarith

/-- Claim C9 (amended, proved): for every non-negative time matrix with at
least 2 nodes *whose nearest-neighbour baseline time is non-zero*, the
simplified optimizer reports an `improvement_percent` of at least 5 and
a strictly positive `time_saved`, even when the optimized route equals
the baseline.  (When the baseline time is zero — e.g. the all-zero
matrix — the unguarded division makes the report NaN instead: see the
counterexample.) -/
theorem claim_C9_min_five_percent_and_positive_saving (M : ℕ → ℕ → ℚ)
    (n : ℕ) (h2 : 2 ≤ n) (hM : ∀ i j, 0 ≤ M i j)
    (hbt : calcRouteTime M (nearestNeighbor M n) ≠ 0) :
    ∃ res, simpleOptimize M n = some res
      ∧ 5 ≤ res.improvementPercent ∧ 0 < res.timeSaved := by
  have hpos : 0 < calcRouteTime M (nearestNeighbor M n) :=
    lt_of_le_of_ne (calcRouteTime_nonneg hM _) (Ne.symm hbt)
  simp only [simpleOptimize]
  rw [if_neg hbt]
  refine ⟨_, rfl, le_max_right _ 5, ?_⟩
  have himp : (5 : ℚ) ≤ max ((calcRouteTime M (nearestNeighbor M n)
      - calcRouteTime M (multiStrategy M n))
        / calcRouteTime M (nearestNeighbor M n) * 100) 5 :=
    le_max_right _ 5
  exact mul_pos hpos (div_pos (by linarith) (by norm_num))

/-- The nearest-neighbour route on a 2-node instance is `[0, 1]`. -/
lemma nearestNeighbor_two (M : ℕ → ℕ → ℚ) : nearestNeighbor M 2 = [0, 1] := by
  rfl

/-- Witness for C9: the 2-node matrix with unit off-diagonal times has
baseline time 2 ≠ 0, and the theorem applies. -/
theorem claim_C9_witness :
    (2 ≤ 2
      ∧ calcRouteTime (fun i j => if i = j then 0 else 1)
          (nearestNeighbor (fun i j => if i = j then (0 : ℚ) else 1) 2) ≠ 0)
    ∧ ∃ res, simpleOptimize (fun i j => if i = j then (0 : ℚ) else 1) 2 = some res
      ∧ 5 ≤ res.improvementPercent ∧ 0 < res.timeSaved :=
  ⟨⟨le_refl 2, by
      rw [nearestNeighbor_two]
      show ¬((if (0 : ℕ) = 1 then (0 : ℚ) else 1) + 0
        + (if (1 : ℕ) = 0 then (0 : ℚ) else 1)) = 0
      norm_num⟩,
    claim_C9_min_five_percent_and_positive_saving _ 2 (le_refl 2)
      (fun i j => by split <;> norm_num)
      (by
        rw [nearestNeighbor_two]
        show ¬((if (0 : ℕ) = 1 then (0 : ℚ) else 1) + 0
          + (if (1 : ℕ) = 0 then (0 : ℚ) else 1)) = 0
        norm_num)⟩

/-- Counterexample for C9 as frozen: on the all-zero 2-node time matrix
(two coincident coordinates produce exactly this) the baseline time is 0,
the division is unguarded, and the optimizer's report is NaN-poisoned
(`none` in the embedding) — it does not report a ≥ 5% improvement or a
positive saving. -/
theorem claim_C9_counterexample :
    simpleOptimize (fun _ _ => (0 : ℚ)) 2 = none := by
  have hz : calcRouteTime (fun _ _ => (0 : ℚ))
      (nearestNeighbor (fun _ _ => (0 : ℚ)) 2) = 0 := by
    rw [nearestNeighbor_two]
    show ((0 : ℚ) + 0 + 0) = 0
    norm_num
  simp only [simpleOptimize]
  rw [if_pos hz]

/-! ## Claims C5, C6, C8 — shared traffic-simulator lemmas -/

/-- Indexing a mapped range with a default value inside the bound. -/
lemma getD_map_range {α : Type} {n i : ℕ} (f : ℕ → α) (d : α) (h : i < n) :
    (((List.range n).map f).getD i d) = f i := by
  rw [List.getD_eq_getElem?_getD, List.getElem?_map, List.getElem?_range h]
  rfl

/-- The entries of the computed travel-time matrix. -/
lemma matEntry_compute (store : IncidentStore) (coords : List (ℚ × ℚ))
    (now : ℚ) (weather : String) {i j : ℕ}
    (hi : i < coords.length) (hj : j < coords.length) :
    matEntry (computeTravelTimeMatrix store coords now weather) i j
      = if i = j then 0 else travelTimeEntry store coords now weather i j := by
  unfold matEntry computeTravelTimeMatrix
  rw [getD_map_range _ _ hi, getD_map_range _ _ hj]

/-- A successful `List.lookup` finds an entry of the list. -/
lemma lookup_mem_store {store : IncidentStore} {e : ℕ × ℕ} {inc : Incident}
    (h : store.lookup e = some inc) : (e, inc) ∈ store := by
  induction store with
  | nil => cases h
  | cons a t ih =>
    rw [List.lookup] at h
    by_cases he : e = a.1
    · subst he
      have hb : (a.1 == a.1) = true := by simp
      rw [hb] at h
      cases h
      exact List.mem_cons_self _ _
    · have hb : (e == a.1) = false := by simp [he]
      rw [hb] at h
      exact List.mem_cons_of_mem a (ih h)

/-- Haversine distances are non-negative: the arcsine of a square root
is non-negative. -/
lemma haversine_nonneg (c1 c2 : ℚ × ℚ) : 0 ≤ haversine c1 c2 := by
  unfold haversine
  have h := Real.arcsin_nonneg.2 (Real.sqrt_nonneg
    (Real.sin ((rad c2.1 - rad c1.1) / 2) ^ 2
      + Real.cos (rad c1.1) * Real.cos (rad c2.1)
        * Real.sin ((rad c2.2 - rad c1.2) / 2) ^ 2))
  dsimp only
  nlinarith

/-- Every weather multiplier is positive. -/
lemma weatherImpact_pos (w : String) : 0 < weatherImpact w := by
  unfold weatherImpact
  split_ifs <;> norm_num

/-- The time-of-day multiplier is positive for every simulated clock. -/
lemma getTimeMultiplier_pos (h d : ℤ) (w : String) :
    0 < getTimeMultiplier h d w := by
  unfold getTimeMultiplier
  refine mul_pos (mul_pos ?_ ?_) (weatherImpact_pos w)
  · split <;> norm_num
  · split <;> norm_num

/-- If every stored incident multiplier is non-negative, so is every
edge multiplier the simulator applies. -/
lemma getEdgeMultiplier_nonneg {store : IncidentStore}
    (hstore : ∀ p ∈ store, 0 ≤ p.2.multiplier) (edge : ℕ × ℕ) (now : ℚ) :
    0 ≤ getEdgeMultiplier store edge now := by
  unfold getEdgeMultiplier
  cases hl : store.lookup edge with
  | none => norm_num
  | some inc =>
    dsimp only
    split
    · exact hstore (edge, inc) (lookup_mem_store hl)
    · norm_num

/-- Every off-diagonal matrix entry is non-negative when the stored
incident multipliers are. -/
lemma travelTimeEntry_nonneg (store : IncidentStore)
    (hstore : ∀ p ∈ store, 0 ≤ p.2.multiplier) (coords : List (ℚ × ℚ))
    (now : ℚ) (weather : String) (i j : ℕ) :
    0 ≤ travelTimeEntry store coords now weather i j := by
  unfold travelTimeEntry
  dsimp only
  have hbase : 0 ≤ haversine (coords.getD i (0, 0)) (coords.getD j (0, 0)) / 30 * 60 := by
    have := haversine_nonneg (coords.getD i (0, 0)) (coords.getD j (0, 0))
    positivity
  refine mul_nonneg hbase ?_
  rw [Rat.cast_nonneg]
  exact mul_nonneg (le_of_lt (getTimeMultiplier_pos _ _ _))
    (getEdgeMultiplier_nonneg hstore _ _)

/-! ## Claim C8 -/

/-- Claim C8 (confirmed): for every valid coordinate list (and any clock,
weather and incident store with the non-negative multipliers that every
scenario produces), the computed travel-time matrix is square with side
`len(coords)`, has 0 at every diagonal entry, and a non-negative value
everywhere else. -/
theorem claim_C8_matrix_square_zero_diag_nonneg (coords : List (ℚ × ℚ))
    (hv : validCoordList coords) (store : IncidentStore)
    (hstore : ∀ p ∈ store, 0 ≤ p.2.multiplier) (now : ℚ) (weather : String) :
    (computeTravelTimeMatrix store coords now weather).length = coords.length
      ∧ (∀ row ∈ computeTravelTimeMatrix store coords now weather,
          row.length = coords.length)
      ∧ (∀ i, i < coords.length →
          matEntry (computeTravelTimeMatrix store coords now weather) i i = 0)
      ∧ ∀ i j, i < coords.length → j < coords.length →
          0 ≤ matEntry (computeTravelTimeMatrix store coords now weather) i j := by
  refine ⟨by simp [computeTravelTimeMatrix], ?_, ?_, ?_⟩
  · intro row hrow
    rw [computeTravelTimeMatrix, List.mem_map] at hrow
    obtain ⟨i, _, rfl⟩ := hrow
    simp
  · intro i hi
    rw [matEntry_compute store coords now weather hi hi, if_pos rfl]
  · intro i j hi hj
    rw [matEntry_compute store coords now weather hi hj]
    split
    · exact le_refl 0
    · exact travelTimeEntry_nonneg store hstore coords now weather i j

/-- Witness for C8: two valid coordinates, the empty incident store. -/
theorem claim_C8_witness :
    (validCoordList [(0, 0), (45, 0)]
      ∧ ∀ p ∈ ([] : IncidentStore), 0 ≤ p.2.multiplier)
    ∧ ((computeTravelTimeMatrix [] [(0, 0), (45, 0)] 720 "clear").length = 2
      ∧ (∀ row ∈ computeTravelTimeMatrix [] [(0, 0), (45, 0)] 720 "clear",
          row.length = 2)
      ∧ (∀ i, i < 2 →
          matEntry (computeTravelTimeMatrix [] [(0, 0), (45, 0)] 720 "clear") i i = 0)
      ∧ ∀ i j, i < 2 → j < 2 →
          0 ≤ matEntry (computeTravelTimeMatrix [] [(0, 0), (45, 0)] 720 "clear") i j) :=
  ⟨⟨by decide, by simp⟩,
    claim_C8_matrix_square_zero_diag_nonneg [(0, 0), (45, 0)] (by decide) []
      (by simp) 720 "clear"⟩

/-! ## Claim C5 -/

/-- Claim C5 (amended, proved): the time-matrix computation performs *no*
coordinate validation — every coordinate list, valid or not, is accepted
and an `n × n` matrix is returned (there is no `ValidationError` anywhere
in the code); for valid coordinate lists the returned matrix has no
negative entries.  (With float NaN inputs the haversine propagates NaN
into the matrix rather than rejecting them; NaN does not exist in the
rational/real embedding, so that part is outside this statement.) -/
theorem claim_C5_no_validation_matrix_always_returned (coords : List (ℚ × ℚ))
    (store : IncidentStore) (now : ℚ) (weather : String) :
    (computeTravelTimeMatrix store coords now weather).length = coords.length
      ∧ (validCoordList coords → (∀ p ∈ store, 0 ≤ p.2.multiplier) →
          ∀ i j, i < coords.length → j < coords.length →
            0 ≤ matEntry (computeTravelTimeMatrix store coords now weather) i j) := by
  refine ⟨by simp [computeTravelTimeMatrix], ?_⟩
  intro _ hstore i j hi hj
  rw [matEntry_compute store coords now weather hi hj]
  split
  · exact le_refl 0
  · exact travelTimeEntry_nonneg store hstore coords now weather i j

/-- Witness for C5: the amended theorem instantiated at a valid
two-coordinate list and the empty store. -/
theorem claim_C5_witness :
    (computeTravelTimeMatrix [] [(0, 0), (45, 0)] 720 "clear").length = 2
      ∧ (validCoordList [(0, 0), (45, 0)]
          → (∀ p ∈ ([] : IncidentStore), 0 ≤ p.2.multiplier)
          → ∀ i j, i < 2 → j < 2 →
              0 ≤ matEntry (computeTravelTimeMatrix [] [(0, 0), (45, 0)] 720 "clear") i j) :=
  claim_C5_no_validation_matrix_always_returned [(0, 0), (45, 0)] [] 720 "clear"

/-- Counterexample for C5 as frozen: the malformed coordinate list
`[(200, 0), (0, 0)]` (latitude 200 far out of range) is *not* rejected
with a validation error — the computation accepts it and returns an
ordinary 2×2 matrix. -/
theorem claim_C5_counterexample :
    ¬ validCoordList [(200, 0), (0, 0)]
      ∧ (computeTravelTimeMatrix [] [(200, 0), (0, 0)] 720 "clear").length = 2 := by
  constructor
  · intro h
    have := h (200, 0) (List.mem_cons_self _ _)
    norm_num at this
  · simp [computeTravelTimeMatrix]

/-! ## Claim C6 -/

/-- Two distinct valid coordinates used to exhibit the state leak. -/
def c6Coords : List (ℚ × ℚ) := [(0, 0), (45, 0)]

/-- The incident store after `simulate_scenario(coords, 'incident')` at
clock value 720: the accident on edge 0-1 and the construction on edge
1-2, both with a [720, 840] validity window. -/
def leakedStore : IncidentStore :=
  addIncident (addIncident [] (0, 1) "accident" (3 / 2) 720 2)
    (1, 2) "construction" (6 / 5) 720 2

/-- The haversine distance between the two `c6Coords` points is
strictly positive. -/
lemma haversine_c6_pos : 0 < haversine (0, 0) (45, 0) := by
  unfold haversine rad
  dsimp only
  have hq0 : ((0 : ℚ) : ℝ) = 0 := by norm_num
  have hq45 : ((45 : ℚ) : ℝ) = 45 := by norm_num
  rw [hq0, hq45]
  have e1 : ((45 : ℝ) * Real.pi / 180 - 0 * Real.pi / 180) / 2 = Real.pi / 8 := by
    ring
  have e2 : ((0 : ℝ) * Real.pi / 180 - 0 * Real.pi / 180) / 2 = 0 := by ring
  rw [e1, e2, Real.sin_zero]
  have hs : 0 < Real.sin (Real.pi / 8) :=
    Real.sin_pos_of_pos_of_lt_pi (by positivity) (by linarith [Real.pi_pos])
  have ha : 0 < Real.sin (Real.pi / 8) ^ 2
      + Real.cos (0 * Real.pi / 180) * Real.cos (45 * Real.pi / 180) * 0 ^ 2 := by
    have : Real.sin (Real.pi / 8) ^ 2
        + Real.cos (0 * Real.pi / 180) * Real.cos (45 * Real.pi / 180) * 0 ^ 2
        = Real.sin (Real.pi / 8) ^ 2 := by ring
    rw [this]
    positivity
  have harc : 0 < Real.arcsin (Real.sqrt (Real.sin (Real.pi / 8) ^ 2
      + Real.cos (0 * Real.pi / 180) * Real.cos (45 * Real.pi / 180) * 0 ^ 2)) :=
    Real.arcsin_pos.2 (Real.sqrt_pos.2 ha)
  nlinarith

/-- The leaked accident incident is active on edge 0-1 at clock 720 and
scales it by 1.8 × 1.5 = 2.7. -/
lemma leakedStore_edge01 : getEdgeMultiplier leakedStore (0, 1) 720 = 27 / 10 := by
  simp [leakedStore, getEdgeMultiplier, addIncident, List.lookup,
    predictIncidentImpact,
    show (((0, 1) : ℕ × ℕ) == (1, 2)) = false from rfl,
    show (((0, 1) : ℕ × ℕ) == (0, 1)) = true from rfl]
  norm_num

/-- Claim C6 (refuted — code bug): the claim states that for fixed inputs
two runs of `simulate_scenario` produce the same matrix and that calls on
the same simulator instance are independent of hidden state.  In fact
the `incident` scenario mutates `self.incidents` permanently (the local
`incidents = {}` of the other branches is dead code), so a subsequent
`normal` run on the same instance returns a matrix scaled by the leaked
incident multipliers and differs from the `normal` run of a fresh
instance — with the very same coordinates, scenario and clock value. -/
theorem claim_C6_incident_state_leaks_across_calls :
    (∃ m1, simulateScenario [] c6Coords "incident" 720 = some (m1, leakedStore))
      ∧ (simulateScenario leakedStore c6Coords "normal" 720).map Prod.fst
          ≠ (simulateScenario [] c6Coords "normal" 720).map Prod.fst := by
  refine ⟨⟨_, rfl⟩, ?_⟩
  intro heq
  have h2 : simulateScenario leakedStore c6Coords "normal" 720
      = some (computeTravelTimeMatrix leakedStore c6Coords 720 "clear",
          leakedStore) := rfl
  have h3 : simulateScenario [] c6Coords "normal" 720
      = some (computeTravelTimeMatrix [] c6Coords 720 "clear", []) := rfl
  rw [h2, h3, Option.map_some', Option.map_some'] at heq
  have hmat : computeTravelTimeMatrix leakedStore c6Coords 720 "clear"
      = computeTravelTimeMatrix [] c6Coords 720 "clear" := by
    injection heq
  have h01 := congrArg (fun m => matEntry m 0 1) hmat
  dsimp only at h01
  have hi : (0 : ℕ) < c6Coords.length := by norm_num [c6Coords]
  have hj : (1 : ℕ) < c6Coords.length := by norm_num [c6Coords]
  rw [matEntry_compute leakedStore c6Coords 720 "clear" hi hj,
    matEntry_compute [] c6Coords 720 "clear" hi hj,
    if_neg (by norm_num : ¬(0 : ℕ) = 1),
    if_neg (by norm_num : ¬(0 : ℕ) = 1)] at h01
  unfold travelTimeEntry at h01
  dsimp only at h01
  rw [leakedStore_edge01,
    show getEdgeMultiplier [] (0, 1) 720 = 1 from rfl,
    show c6Coords.getD 0 (0, 0) = (0, 0) from rfl,
    show c6Coords.getD 1 (0, 0) = (45, 0) from rfl] at h01
  have hbase : 0 < haversine (0, 0) (45, 0) / 30 * 60 := by
    have := haversine_c6_pos
    positivity
  have htm : (0 : ℝ) < ((getTimeMultiplier (hourOf 720) (weekdayOf 720)
      "clear" : ℚ) : ℝ) := by
    rw [Rat.cast_pos]
    exact getTimeMultiplier_pos _ _ _
  push_cast at h01
  nlinarith

end Quantum2
